import Mathlib

/-!
Shallow embedding of `safe_password.py` (the core, non-GUI part):
`CharsetBuilder`, `PasswordGenerator`, `PasswordRulesValidator`, the three
strength rules (`MinimumLengthRule`, `PresentTwoOtherCharsRule`,
`PresentCharsubsetsRule`) and `PasswordStrengthCounter`.

Modelling conventions:
- Python strings are `List Char`.
- The Python `random` module is modelled by threading an explicit stream of
  random numbers (`List Nat`); each draw of an index into a sequence of
  length `n` is `r % n` for the next stream element, which is uniform when
  the stream element is uniform.
- Python exceptions raised by the generator (the `ValueError` of
  `random.sample` when the sample is larger than the population, the
  `IndexError` of `random.choice` on an empty sequence) are modelled as
  `Except` errors.
- Python float weights (20.0, sums up to 100.0, divided by 100.0) are
  modelled as rationals; all values involved are exactly representable.
- Python `join(set(s))` deduplicates a string in unspecified order; it is
  modelled by `List.dedup`, which is one specific deduplication. All claims
  about the builder are set-level, so the order choice is irrelevant.
-/

namespace SafePassword

/-- Python `string.ascii_lowercase`. -/
def ascii_lowercase : List Char := ("abcdefghijklmnopqrstuvwxyz").toList

/-- Python `string.ascii_uppercase`. -/
def ascii_uppercase : List Char := ("ABCDEFGHIJKLMNOPQRSTUVWXYZ").toList

/-- Python `string.digits`. -/
def digits : List Char := ("0123456789").toList

/-- Python `string.punctuation`: the ASCII characters with codes 33-47,
58-64, 91-96 and 123-126 (written via codes to avoid quoting issues). -/
def punctuation : List Char :=
  ((List.range 128).filter (fun n =>
    (33 ≤ n && n ≤ 47) || (58 ≤ n && n ≤ 64) ||
    (91 ≤ n && n ≤ 96) || (123 ≤ n && n ≤ 126))).map Char.ofNat

/-- Python `class CharsetBuilder`: two string accumulators. -/
structure CharsetBuilder where
  included_chars : List Char
  excluded_chars : List Char
  deriving DecidableEq

namespace CharsetBuilder

/-- Constructor `CharsetBuilder.__init__`: both accumulators start empty. -/
def init : CharsetBuilder := ⟨[], []⟩

/-- Method `include_chars`: appends to the included accumulator (returns `self`,
modelled as the new state). -/
def include_chars (b : CharsetBuilder) (chars : List Char) : CharsetBuilder :=
  { b with included_chars := b.included_chars ++ chars }

/-- Method `exclude_chars`: appends to the excluded accumulator. -/
def exclude_chars (b : CharsetBuilder) (chars : List Char) : CharsetBuilder :=
  { b with excluded_chars := b.excluded_chars ++ chars }

/-- Method `build`: first mutates both accumulators to their deduplicated form
(Python `join(set(...))`), then returns every included character not
present in the excluded accumulator (`if not char in self.excluded_chars`).
Returns (new state, charset). -/
def build (b : CharsetBuilder) : CharsetBuilder × List Char :=
  let included := b.included_chars.dedup
  let excluded := b.excluded_chars.dedup
  let charset := included.filter (fun char => decide (char ∉ excluded))
  (⟨included, excluded⟩, charset)

end CharsetBuilder

/-- Errors the generator can raise (Python exceptions from `random`):
`insufficientCharset` is the `ValueError` of `random.sample` when asked for
more unique characters than the population holds; `emptyCharset` is the
`IndexError` of `random.choice` on an empty sequence. -/
inductive GenError where
  | insufficientCharset
  | emptyCharset
  deriving DecidableEq

/-- One draw without replacement: pick index `r % pool.length` from the
remaining pool, remove it, recurse; `k` draws in total. Only called (from
`generate_password`) with `k ≤ pool.length`, so the empty-pool branch is
unreachable there. -/
def sampleAux : Nat → List Char → List Nat → List Char
  | 0, _, _ => []
  | k + 1, pool, rands =>
    if h : 0 < pool.length then
      let i : Nat := (rands.headD 0) % pool.length
      pool.get ⟨i, Nat.mod_lt _ h⟩ ::
        sampleAux k (pool.eraseIdx i) (rands.tail)
    else []

/-- Makes `length` independent draws with replacement, each
`random.choice(charset)` picking index `r % charset.length`. -/
def choiceList : Nat → List Char → List Nat → List Char
  | 0, _, _ => []
  | k + 1, charset, rands =>
    if h : 0 < charset.length then
      charset.get ⟨(rands.headD 0) % charset.length, Nat.mod_lt _ h⟩ ::
        choiceList k charset (rands.tail)
    else []

/-- Method `PasswordGenerator.generate_password(length, unique_chars, charset)`.
`random.sample(charset, length)` raises `ValueError` when
`length > len(charset)`; `random.choice` raises `IndexError` on an empty
charset (first hit when `length > 0`). Both are modelled as typed errors;
otherwise the draws are made from the explicit random stream. -/
def generate_password (length : Nat) (unique_chars : Bool) (charset : List Char)
    (rands : List Nat) : Except GenError (List Char) :=
  if unique_chars then
    if charset.length < length then Except.error GenError.insufficientCharset
    else Except.ok (sampleAux length charset rands)
  else
    if charset.length = 0 && !(length == 0) then Except.error GenError.emptyCharset
    else Except.ok (choiceList length charset rands)

/-- Python `class PasswordRulesValidator`: holds the last error message
(`self.error`, initially `None`). -/
structure PasswordRulesValidator where
  error : Option String
  deriving DecidableEq

namespace PasswordRulesValidator

/-- Constructor `PasswordRulesValidator.__init__`. -/
def init : PasswordRulesValidator := ⟨none⟩

/-- Method `validate_rules(length, unique, charset)`: checks emptiness first, then
the unique-mode size constraint; records a message in `self.error` on
failure and returns `False`; returns `True` (state untouched) otherwise.
Modelled as (new state, returned Bool). -/
def validate_rules (v : PasswordRulesValidator) (length : Nat) (unique : Bool)
    (charset : List Char) : PasswordRulesValidator × Bool :=
  if charset.length = 0 then
    (⟨some "A charset is empty."⟩, false)
  else if unique && decide (charset.length < length) then
    (⟨some "The charset is too short."⟩, false)
  else
    (v, true)

end PasswordRulesValidator

/-- Method `PresentTwoOtherCharsRule.is_satisfied`:
`any(password.count(char) < len(password) for char in password)`. -/
def PresentTwoOtherCharsRule.is_satisfied (password : List Char) : Bool :=
  password.any (fun char => decide (password.count char < password.length))

/-- Python `class PresentCharsubsetsRule`: a list of reference character classes
and a minimum number of them that must be represented. -/
structure PresentCharsubsetsRule where
  charsubsets : List (List Char)
  present_charsubsets_min : Nat

namespace PresentCharsubsetsRule

/-- The body of the inner `for i in range(len(charsubsets))` loop: flag
position `i` becomes `True` when `char` is in `charsubsets[i]`. -/
def markChar (flags : List Bool) (charsubsets : List (List Char)) (char : Char) :
    List Bool :=
  List.zipWith (fun flag cs => flag || decide (char ∈ cs)) flags charsubsets

/-- The flag array after the outer `for char in password` loop, starting
from `[False] * len(self.charsubsets)`. -/
def presentFlags (charsubsets : List (List Char)) (password : List Char) :
    List Bool :=
  password.foldl (fun flags char => markChar flags charsubsets char)
    (List.replicate charsubsets.length false)

/-- Method `is_satisfied`: run the two loops, then compare
`present_charsubsets.count(True)` with the minimum. -/
def is_satisfied (r : PresentCharsubsetsRule) (password : List Char) : Bool :=
  if r.present_charsubsets_min ≤ (presentFlags r.charsubsets password).count true
  then true else false

end PresentCharsubsetsRule

/-- Python `class MinimumLengthRule`. -/
structure MinimumLengthRule where
  min_length : Nat

/-- Method `MinimumLengthRule.is_satisfied`: `len(password) >= self.min_length`. -/
def MinimumLengthRule.is_satisfied (r : MinimumLengthRule) (password : List Char) :
    Bool :=
  decide (r.min_length ≤ password.length)

/-- The closed set of rule variants held in the counter ladder (Python
uses duck-typed heterogeneous objects sharing `is_satisfied`). -/
inductive StrengthRule where
  | minimumLength (r : MinimumLengthRule)
  | presentTwoOtherChars
  | presentCharsubsets (r : PresentCharsubsetsRule)

/-- Dispatch of `.is_satisfied(password)` over the variants. -/
def StrengthRule.is_satisfied : StrengthRule → List Char → Bool
  | StrengthRule.minimumLength r, password => r.is_satisfied password
  | StrengthRule.presentTwoOtherChars, password =>
      PresentTwoOtherCharsRule.is_satisfied password
  | StrengthRule.presentCharsubsets r, password => r.is_satisfied password

namespace PasswordStrengthCounter

/-- The canonical ordered charsubsets built in
`PasswordStrengthCounter.__init__`. -/
def charsubsets : List (List Char) :=
  [ascii_lowercase, ascii_uppercase, digits, punctuation]

/-- The field `self.rules`: the fixed weighted ladder from
`PasswordStrengthCounter.__init__`. -/
def rules : List (StrengthRule × ℚ) :=
  [ (StrengthRule.minimumLength ⟨1⟩, 20),
    (StrengthRule.minimumLength ⟨8⟩, 20),
    (StrengthRule.presentTwoOtherChars, 20),
    (StrengthRule.presentCharsubsets ⟨charsubsets, 2⟩, 20),
    (StrengthRule.presentCharsubsets ⟨charsubsets, 3⟩, 20) ]

/-- The `for rule, weight in self.rules` loop of `count_strength`: add the
weight while the rule is satisfied, `break` at the first failure. -/
def accumulate (ladder : List (StrengthRule × ℚ)) (password : List Char) : ℚ :=
  match ladder with
  | [] => 0
  | (rule, weight) :: rest =>
    if rule.is_satisfied password then weight + accumulate rest password else 0

/-- Method `count_strength(password)`: the loop total divided by 100.0. -/
def count_strength (password : List Char) : ℚ :=
  accumulate rules password / 100

end PasswordStrengthCounter

end SafePassword

namespace SafePassword

theorem build_mem (b : CharsetBuilder) (c : Char) :
    c ∈ (b.build).2 ↔ c ∈ b.included_chars ∧ c ∉ b.excluded_chars := by
  simp [CharsetBuilder.build, List.mem_filter, List.mem_dedup]

/-- Claim C4: every `build()` result has no duplicate characters, contains every
included character that is not excluded, and is disjoint from the excluded
accumulator; `build` is a total function, so an empty result is an ordinary
value and no error is possible. -/
theorem build_charset_sound (b : CharsetBuilder) :
    (b.build).2.Nodup ∧
    (∀ c, c ∈ b.included_chars → c ∉ b.excluded_chars → c ∈ (b.build).2) ∧
    (∀ c, c ∈ (b.build).2 → c ∉ b.excluded_chars) := by
  refine ⟨(List.nodup_dedup _).filter _, ?_, ?_⟩
  · intro c hin hex
    exact (build_mem b c).mpr ⟨hin, hex⟩
  · intro c hc
    exact ((build_mem b c).mp hc).2

/-- Witness for C4 at the scenario `include_chars("ab"); exclude_chars("b")`. -/
theorem build_charset_sound_witness :
    ((CharsetBuilder.init.include_chars (("ab").toList)).exclude_chars
        (("b").toList)).build.2.Nodup ∧
    Char.ofNat 97 ∈ ((CharsetBuilder.init.include_chars (("ab").toList)).exclude_chars
        (("b").toList)).build.2 := by
  have h := build_charset_sound
    ((CharsetBuilder.init.include_chars (("ab").toList)).exclude_chars (("b").toList))
  exact ⟨h.1, h.2.1 (Char.ofNat 97) (by decide) (by decide)⟩

/-- Claim C5: `build()` is idempotent: building again on the state left by a
previous `build()` (which deduplicated the accumulators in place) yields
the same charset as a set of characters. -/
theorem build_idempotent (b : CharsetBuilder) (c : Char) :
    c ∈ ((b.build).1.build).2 ↔ c ∈ (b.build).2 := by
  simp [CharsetBuilder.build, List.dedup_idem, List.mem_filter, List.mem_dedup]

/-- Witness for C5 at a concrete builder state. -/
theorem build_idempotent_witness :
    Char.ofNat 97 ∈
      (((CharsetBuilder.init.include_chars (("aab").toList)).build).1.build).2 ↔
    Char.ofNat 97 ∈ ((CharsetBuilder.init.include_chars (("aab").toList)).build).2 :=
  build_idempotent (CharsetBuilder.init.include_chars (("aab").toList)) (Char.ofNat 97)

/-- Claim C2: `validate_rules` reports the empty-charset error whenever the
charset is empty (emptiness is checked first, whatever `length` and
`unique` are), reports the too-small error whenever the charset is
non-empty, `unique` is set, and `length` exceeds the charset size, and
returns `True` leaving the state untouched otherwise. The two stored
messages realize the spec error kinds EmptyCharset and CharsetTooSmall. -/
theorem validate_rules_spec (v : PasswordRulesValidator) (length : Nat)
    (unique : Bool) (charset : List Char) :
    (charset.length = 0 →
      v.validate_rules length unique charset = (⟨some "A charset is empty."⟩, false)) ∧
    (charset.length ≠ 0 → unique = true → charset.length < length →
      v.validate_rules length unique charset = (⟨some "The charset is too short."⟩, false)) ∧
    (charset.length ≠ 0 → (unique = false ∨ length ≤ charset.length) →
      v.validate_rules length unique charset = (v, true)) := by
  refine ⟨?_, ?_, ?_⟩
  · intro h
    simp [PasswordRulesValidator.validate_rules, h]
  · intro h hu hl
    simp [PasswordRulesValidator.validate_rules, h, hu, hl]
  · intro h hcase
    rcases hcase with hu | hl
    · simp [PasswordRulesValidator.validate_rules, h, hu]
    · simp [PasswordRulesValidator.validate_rules, h, Nat.not_lt.mpr hl]

/-- Witness for C2: the three spec scenarios (empty charset, two-character
charset with unique length 5, and a valid request). -/
theorem validate_rules_spec_witness :
    PasswordRulesValidator.init.validate_rules 5 false []
      = (⟨some "A charset is empty."⟩, false) ∧
    PasswordRulesValidator.init.validate_rules 5 true (("ab").toList)
      = (⟨some "The charset is too short."⟩, false) ∧
    PasswordRulesValidator.init.validate_rules 2 true (("ab").toList)
      = (PasswordRulesValidator.init, true) :=
  ⟨(validate_rules_spec PasswordRulesValidator.init 5 false []).1 rfl,
   (validate_rules_spec PasswordRulesValidator.init 5 true (("ab").toList)).2.1
     (by decide) rfl (by decide),
   (validate_rules_spec PasswordRulesValidator.init 2 true (("ab").toList)).2.2
     (by decide) (Or.inr (by decide))⟩

/-- Claim C10: a successful validation returns the receiver state unchanged, so
it never clears `self.error`; concretely, after a failed validation on an
empty charset, a later successful validation on the same instance still
leaves the stale message in `self.error`. -/
theorem validate_success_keeps_stale_error :
    (∀ (v : PasswordRulesValidator) (length : Nat) (unique : Bool)
        (charset : List Char),
      (v.validate_rules length unique charset).2 = true →
      (v.validate_rules length unique charset).1 = v) ∧
    ((PasswordRulesValidator.init.validate_rules 5 false []).1.error
        = some "A charset is empty." ∧
      ((PasswordRulesValidator.init.validate_rules 5 false []).1.validate_rules 3
          false (("a").toList)).2 = true ∧
      ((PasswordRulesValidator.init.validate_rules 5 false []).1.validate_rules 3
          false (("a").toList)).1.error = some "A charset is empty.") := by
  refine ⟨?_, by decide, by decide, by decide⟩
  intro v length unique charset h
  by_cases h0 : charset.length = 0
  · simp [PasswordRulesValidator.validate_rules, h0] at h
  · by_cases h1 : (unique && decide (charset.length < length)) = true
    · simp [PasswordRulesValidator.validate_rules, h0, h1] at h
    · simp [PasswordRulesValidator.validate_rules, h0, h1]

/-- Witness for C10, the universally quantified part. -/
theorem validate_success_keeps_stale_error_witness :
    (PasswordRulesValidator.init.validate_rules 1 false (("a").toList)).1
      = PasswordRulesValidator.init :=
  validate_success_keeps_stale_error.1 PasswordRulesValidator.init 1 false
    (("a").toList) (by decide)

end SafePassword

namespace SafePassword

theorem choiceList_length (k : Nat) (charset : List Char) (rands : List Nat)
    (h : 0 < charset.length) : (choiceList k charset rands).length = k := by
  induction k generalizing rands with
  | zero => simp [choiceList]
  | succ n ih => simp [choiceList, h, ih]

theorem choiceList_mem (k : Nat) (charset : List Char) (rands : List Nat) :
    ∀ c ∈ choiceList k charset rands, c ∈ charset := by
  induction k generalizing rands with
  | zero => simp [choiceList]
  | succ n ih =>
    intro c hc
    by_cases h : 0 < charset.length
    · simp only [choiceList, dif_pos h, List.mem_cons] at hc
      rcases hc with hc | hc
      · exact hc ▸ List.get_mem charset _ _
      · exact ih rands.tail c hc
    · simp [choiceList, h] at hc

/-- Claim C7: with `unique_chars` off and a non-empty charset, the generator
succeeds and returns exactly `length` characters, each drawn from the
charset (repetitions allowed). -/
theorem generate_password_repeat_spec (length : Nat) (charset : List Char)
    (rands : List Nat) (hne : charset ≠ []) (_hpos : 0 < length) :
    ∃ pw, generate_password length false charset rands = Except.ok pw ∧
      pw.length = length ∧ ∀ c ∈ pw, c ∈ charset := by
  have hlen : 0 < charset.length := List.length_pos.mpr hne
  refine ⟨choiceList length charset rands, ?_, choiceList_length length charset rands hlen,
    choiceList_mem length charset rands⟩
  simp [generate_password, Nat.pos_iff_ne_zero.mp hlen]

/-- Witness for C7 at charset "ab", length 3. -/
theorem generate_password_repeat_spec_witness :
    ∃ pw, generate_password 3 false (("ab").toList) [0, 1, 5] = Except.ok pw ∧
      pw.length = 3 ∧ ∀ c ∈ pw, c ∈ (("ab").toList) :=
  generate_password_repeat_spec 3 (("ab").toList) [0, 1, 5] (by decide) (by decide)

theorem sampleAux_length (k : Nat) (pool : List Char) (rands : List Nat)
    (h : k ≤ pool.length) : (sampleAux k pool rands).length = k := by
  induction k generalizing pool rands with
  | zero => simp [sampleAux]
  | succ n ih =>
    have hp : 0 < pool.length := Nat.lt_of_lt_of_le (Nat.succ_pos n) h
    have he : ((pool.eraseIdx ((rands.headD 0) % pool.length)).length) = pool.length - 1 := by
      rw [List.length_eraseIdx]
      simp [Nat.mod_lt _ hp]
    simp only [sampleAux, dif_pos hp, List.length_cons]
    rw [ih _ _ (by omega)]

theorem sampleAux_mem (k : Nat) (pool : List Char) (rands : List Nat) :
    ∀ c ∈ sampleAux k pool rands, c ∈ pool := by
  induction k generalizing pool rands with
  | zero => simp [sampleAux]
  | succ n ih =>
    intro c hc
    by_cases hp : 0 < pool.length
    · simp only [sampleAux, dif_pos hp, List.mem_cons] at hc
      rcases hc with hc | hc
      · exact hc ▸ List.get_mem pool _ _
      · exact List.eraseIdx_subset pool _ (ih _ rands.tail c hc)
    · simp [sampleAux, hp] at hc

theorem not_get_mem_eraseIdx (pool : List Char) (hnd : pool.Nodup) (i : Nat)
    (hi : i < pool.length) : pool.get ⟨i, hi⟩ ∉ pool.eraseIdx i := by
  intro hmem
  rw [List.mem_eraseIdx_iff_getElem] at hmem
  obtain ⟨j, hj, hne, heq⟩ := hmem
  have : pool.get ⟨i, hi⟩ = pool[i] := rfl
  rw [this] at heq
  exact hne ((hnd.getElem_inj_iff).mp heq)

theorem sampleAux_nodup (k : Nat) (pool : List Char) (rands : List Nat)
    (hnd : pool.Nodup) : (sampleAux k pool rands).Nodup := by
  induction k generalizing pool rands with
  | zero => simp [sampleAux]
  | succ n ih =>
    by_cases hp : 0 < pool.length
    · simp only [sampleAux, dif_pos hp]
      refine List.nodup_cons.mpr ⟨?_, ih _ rands.tail (hnd.sublist (List.eraseIdx_sublist _ _))⟩
      intro hmem
      exact not_get_mem_eraseIdx pool hnd _ (Nat.mod_lt _ hp)
        (sampleAux_mem _ _ _ _ hmem)
    · simp [sampleAux, hp]

end SafePassword

namespace SafePassword

/-- Claim C6: with `unique_chars` on, a duplicate-free non-empty charset, and a
positive length no larger than the charset size, the generator succeeds and
returns exactly `length` characters, all from the charset, with no
character repeated (the no-duplicate hypothesis is the Charset invariant
guaranteed by `CharsetBuilder.build`). -/
theorem generate_password_unique_spec (length : Nat) (charset : List Char)
    (rands : List Nat) (hnd : charset.Nodup) (_hne : charset ≠ [])
    (_hpos : 0 < length) (hle : length ≤ charset.length) :
    ∃ pw, generate_password length true charset rands = Except.ok pw ∧
      pw.length = length ∧ pw.Nodup ∧ ∀ c ∈ pw, c ∈ charset := by
  refine ⟨sampleAux length charset rands, ?_,
    sampleAux_length length charset rands hle,
    sampleAux_nodup length charset rands hnd,
    sampleAux_mem length charset rands⟩
  simp [generate_password, Nat.not_lt.mpr hle]

/-- Witness for C6 at charset "abcde", length 3. -/
theorem generate_password_unique_spec_witness :
    ∃ pw, generate_password 3 true (("abcde").toList) [7, 2, 2] = Except.ok pw ∧
      pw.length = 3 ∧ pw.Nodup ∧ ∀ c ∈ pw, c ∈ (("abcde").toList) :=
  generate_password_unique_spec 3 (("abcde").toList) [7, 2, 2] (by decide)
    (by decide) (by decide) (by decide)

/-- Claim C3: invoking the generator standalone in unique mode with a length
larger than the charset produces the typed `insufficientCharset` error (the
`ValueError` of `random.sample`); `generate_password` is a total function
into `Except`, so this is a typed failure, not a crash. -/
theorem generate_password_insufficient (length : Nat) (charset : List Char)
    (rands : List Nat) (h : charset.length < length) :
    generate_password length true charset rands
      = Except.error GenError.insufficientCharset := by
  simp [generate_password, h]

/-- Witness for C3: charset "ab", unique length 5. -/
theorem generate_password_insufficient_witness :
    generate_password 5 true (("ab").toList) []
      = Except.error GenError.insufficientCharset :=
  generate_password_insufficient 5 (("ab").toList) [] (by decide)

end SafePassword

namespace SafePassword

/-- Claim C8: the distinct-chars rule holds exactly when some character occurs
strictly fewer times than the password length, which is exactly when the
password holds two distinct characters; the empty and the length-1 password
never satisfy it. -/
theorem presentTwoOtherChars_spec (p : List Char) :
    (PresentTwoOtherCharsRule.is_satisfied p = true ↔
      ∃ c ∈ p, p.count c < p.length) ∧
    (PresentTwoOtherCharsRule.is_satisfied p = true ↔
      ∃ a ∈ p, ∃ b ∈ p, a ≠ b) ∧
    (p.length ≤ 1 → PresentTwoOtherCharsRule.is_satisfied p = false) := by
  have hdef : PresentTwoOtherCharsRule.is_satisfied p = true ↔
      ∃ c ∈ p, p.count c < p.length := by
    simp [PresentTwoOtherCharsRule.is_satisfied, List.any_eq_true]
  refine ⟨hdef, hdef.trans ?_, ?_⟩
  · constructor
    · rintro ⟨c, hc, hlt⟩
      have : ¬ ∀ b ∈ p, c = b := fun hall =>
        absurd (List.count_eq_length.mpr hall) (Nat.ne_of_lt hlt)
      push_neg at this
      obtain ⟨b, hb, hne⟩ := this
      exact ⟨c, hc, b, hb, hne⟩
    · rintro ⟨a, ha, b, hb, hab⟩
      refine ⟨a, ha, Nat.lt_of_le_of_ne (List.count_le_length a p) ?_⟩
      intro heq
      exact hab (List.count_eq_length.mp heq b hb)
  · intro hlen
    match p, hlen with
    | [], _ => rfl
    | [a], _ => simp [PresentTwoOtherCharsRule.is_satisfied]

/-- Witness for C8: a length-1 password fails the rule, a two-letter one
satisfies it. -/
theorem presentTwoOtherChars_spec_witness :
    PresentTwoOtherCharsRule.is_satisfied (("a").toList) = false ∧
    (PresentTwoOtherCharsRule.is_satisfied (("ab").toList) = true) :=
  ⟨(presentTwoOtherChars_spec (("a").toList)).2.2 (by decide),
   (presentTwoOtherChars_spec (("ab").toList)).2.1.mpr
     ⟨Char.ofNat 97, by decide, Char.ofNat 98, by decide, by decide⟩⟩

end SafePassword

namespace SafePassword
namespace PresentCharsubsetsRule

theorem zipWith_fst (flags : List Bool) (ss : List (List Char))
    (h : flags.length = ss.length) :
    List.zipWith (fun (f : Bool) (_ : List Char) => f) flags ss = flags := by
  induction flags generalizing ss with
  | nil => simp
  | cons f fs ih =>
    cases ss with
    | nil => simp at h
    | cons s ts =>
      simp only [List.zipWith_cons_cons, List.cons.injEq, true_and]
      exact ih ts (by simpa using h)

theorem zipWith_left_comp (g f : Bool → List Char → Bool) (flags : List Bool)
    (ss : List (List Char)) :
    List.zipWith g (List.zipWith f flags ss) ss
      = List.zipWith (fun a b => g (f a b) b) flags ss := by
  induction flags generalizing ss with
  | nil => simp
  | cons x xs ih =>
    cases ss with
    | nil => simp
    | cons s ts => simp [ih]

theorem foldl_markChar (ss : List (List Char)) (p : List Char) :
    ∀ (flags : List Bool), flags.length = ss.length →
      p.foldl (fun fl c => markChar fl ss c) flags
        = List.zipWith (fun flag cs => flag || p.any (fun c => decide (c ∈ cs)))
            flags ss := by
  induction p with
  | nil =>
    intro flags h
    simp only [List.foldl_nil, List.any_nil, Bool.or_false]
    exact (zipWith_fst flags ss h).symm
  | cons c p ih =>
    intro flags h
    have hlen : (markChar flags ss c).length = ss.length := by
      simp [markChar, List.length_zipWith, h]
    rw [List.foldl_cons, ih (markChar flags ss c) hlen, markChar,
      zipWith_left_comp]
    simp [List.any_cons, Bool.or_assoc]

theorem zipWith_or_replicate_false (q : List Char → Bool) (ss : List (List Char)) :
    List.zipWith (fun (flag : Bool) cs => flag || q cs)
        (List.replicate ss.length false) ss = ss.map q := by
  induction ss with
  | nil => simp
  | cons s ts ih => simpa [List.replicate_succ] using ih

theorem count_true_map (q : List Char → Bool) (ss : List (List Char)) :
    (ss.map q).count true = ss.countP q := by
  rw [List.count_eq_countP, List.countP_map]
  apply List.countP_congr
  intro s _
  simp

/-- Claim C9: the charsubsets rule holds exactly when at least
`present_charsubsets_min` of the reference classes have some representative
character occurring in the password. -/
theorem is_satisfied_iff_countP (r : PresentCharsubsetsRule) (p : List Char) :
    r.is_satisfied p = true ↔
      r.present_charsubsets_min
        ≤ r.charsubsets.countP (fun cs => p.any (fun c => decide (c ∈ cs))) := by
  rw [is_satisfied, presentFlags,
    foldl_markChar r.charsubsets p _ (List.length_replicate _ _),
    zipWith_or_replicate_false, count_true_map]
  split <;> simp_all

/-- Witness for C9: the canonical four classes with minimum 2 on "Ab" and the
countP bound it certifies. -/
theorem is_satisfied_iff_countP_witness :
    (PresentCharsubsetsRule.mk PasswordStrengthCounter.charsubsets 2).is_satisfied
      (("Ab").toList) = true :=
  (is_satisfied_iff_countP
      (PresentCharsubsetsRule.mk PasswordStrengthCounter.charsubsets 2)
      (("Ab").toList)).mpr (by decide)

end PresentCharsubsetsRule
end SafePassword

namespace SafePassword

theorem accumulate_eq_takeWhile (p : List Char) (ladder : List (StrengthRule × ℚ)) :
    PasswordStrengthCounter.accumulate ladder p
      = ((ladder.takeWhile (fun wr => wr.1.is_satisfied p)).map
          (fun wr => wr.2)).sum := by
  induction ladder with
  | nil => simp [PasswordStrengthCounter.accumulate]
  | cons hd tl ih =>
    obtain ⟨rule, w⟩ := hd
    by_cases h : rule.is_satisfied p
    · simp [PasswordStrengthCounter.accumulate, List.takeWhile_cons, h, ih]
    · simp [PasswordStrengthCounter.accumulate, List.takeWhile_cons, h]

/-- Claim C1: `count_strength` is the short-circuiting ladder score: its fixed
ladder is MinimumLength(1), MinimumLength(8), PresentTwoOtherChars,
PresentCharsubsets(min 2), PresentCharsubsets(min 3), each weighted 20; the
returned value is the weight sum of the longest all-satisfied prefix of the
ladder (so nothing after the first unsatisfied rule counts), divided by
100; in particular "a" scores 0.2, "abcdefgh" scores 0.6 and "Ab3!defg"
scores 1.0. -/
theorem count_strength_spec (p : List Char) :
    PasswordStrengthCounter.rules
      = [ (StrengthRule.minimumLength ⟨1⟩, 20),
          (StrengthRule.minimumLength ⟨8⟩, 20),
          (StrengthRule.presentTwoOtherChars, 20),
          (StrengthRule.presentCharsubsets
            ⟨PasswordStrengthCounter.charsubsets, 2⟩, 20),
          (StrengthRule.presentCharsubsets
            ⟨PasswordStrengthCounter.charsubsets, 3⟩, 20) ] ∧
    PasswordStrengthCounter.count_strength p
      = ((PasswordStrengthCounter.rules.takeWhile
            (fun wr => wr.1.is_satisfied p)).map (fun wr => wr.2)).sum / 100 ∧
    PasswordStrengthCounter.count_strength (("a").toList) = 1 / 5 ∧
    PasswordStrengthCounter.count_strength (("abcdefgh").toList) = 3 / 5 ∧
    PasswordStrengthCounter.count_strength (("Ab3!defg").toList) = 1 := by
  refine ⟨rfl, ?_, ?_, ?_, ?_⟩
  · rw [PasswordStrengthCounter.count_strength, accumulate_eq_takeWhile]
  · have h1 : (StrengthRule.minimumLength ⟨1⟩).is_satisfied (("a").toList)
        = true := by decide
    have h2 : (StrengthRule.minimumLength ⟨8⟩).is_satisfied (("a").toList)
        = false := by decide
    simp only [PasswordStrengthCounter.count_strength,
      PasswordStrengthCounter.rules, PasswordStrengthCounter.accumulate,
      h1, h2, if_true, if_false]
    norm_num
  · have h1 : (StrengthRule.minimumLength ⟨1⟩).is_satisfied (("abcdefgh").toList)
        = true := by decide
    have h2 : (StrengthRule.minimumLength ⟨8⟩).is_satisfied (("abcdefgh").toList)
        = true := by decide
    have h3 : StrengthRule.presentTwoOtherChars.is_satisfied (("abcdefgh").toList)
        = true := by decide
    have h4 : (StrengthRule.presentCharsubsets
        ⟨PasswordStrengthCounter.charsubsets, 2⟩).is_satisfied
          (("abcdefgh").toList) = false := by decide
    simp only [PasswordStrengthCounter.count_strength,
      PasswordStrengthCounter.rules, PasswordStrengthCounter.accumulate,
      h1, h2, h3, h4, if_true, if_false]
    norm_num
  · have h1 : (StrengthRule.minimumLength ⟨1⟩).is_satisfied (("Ab3!defg").toList)
        = true := by decide
    have h2 : (StrengthRule.minimumLength ⟨8⟩).is_satisfied (("Ab3!defg").toList)
        = true := by decide
    have h3 : StrengthRule.presentTwoOtherChars.is_satisfied (("Ab3!defg").toList)
        = true := by decide
    have h4 : (StrengthRule.presentCharsubsets
        ⟨PasswordStrengthCounter.charsubsets, 2⟩).is_satisfied
          (("Ab3!defg").toList) = true := by decide
    have h5 : (StrengthRule.presentCharsubsets
        ⟨PasswordStrengthCounter.charsubsets, 3⟩).is_satisfied
          (("Ab3!defg").toList) = true := by decide
    simp only [PasswordStrengthCounter.count_strength,
      PasswordStrengthCounter.rules, PasswordStrengthCounter.accumulate,
      h1, h2, h3, h4, h5, if_true, if_false]
    norm_num

/-- Witness for C1: the concrete score of the all-classes password. -/
theorem count_strength_spec_witness :
    PasswordStrengthCounter.count_strength (("Ab3!defg").toList) = 1 :=
  (count_strength_spec []).2.2.2.2

end SafePassword
